import Mathlib

/-!
Shallow embedding of the Personal Finance Tracker
(`src/Personal_finance_tracker.py`, class `PersonalFinanceDashboard`).

The store is the in-memory `transactions` table: a list of rows with a
calendar date, a signed amount, a category string and a description.
Dates are embedded as (year, month, day) triples; `Date.ord` is the
proleptic-Gregorian day number (pandas datetimes at day granularity
compare and subtract exactly like these ordinals), and `Date.period` is
the `dt.to_period('M')` month key (a `(year, month)` pair, linearised as
`year * 12 + (month - 1)`).  Amounts are embedded as rationals (the CSV
holds decimal literals).  The float corner of `get_income_vs_expenses_chart`
(division producing `inf`/`-inf`/`NaN`) is embedded by the 4-case type
`PFloat`, since those non-finite values decide the savings-rate behaviour.
-/

namespace FinanceTracker

/-- Calendar date at day granularity (`pandas` datetime with no
time-of-day significance). -/
structure Date where
  year : ℕ
  month : ℕ
  day : ℕ
deriving DecidableEq, Repr

/-- Gregorian leap-year test. -/
def isLeap (y : ℕ) : Bool := (y % 4 == 0 && y % 100 != 0) || (y % 400 == 0)

/-- Days strictly before month `m` in year `y` (m = 1..12). -/
def daysBeforeMonth (y m : ℕ) : ℕ :=
  [0, 0, 31, 59, 90, 120, 151, 181, 212, 243, 273, 304, 334].getD m 0 +
    (if isLeap y ∧ 3 ≤ m then 1 else 0)

/-- Proleptic-Gregorian ordinal day number (rata die: 0001-01-01 ↦ 1).
Day-granularity pandas datetimes order and differ exactly as these
ordinals do. -/
def Date.ord (d : Date) : ℕ :=
  365 * (d.year - 1) + (d.year - 1) / 4 - (d.year - 1) / 100 + (d.year - 1) / 400 +
    daysBeforeMonth d.year d.month + d.day

/-- Month key of a date, as produced by `df['Date'].dt.to_period('M')`:
the (year, month) pair, linearised so that the pandas `Period` ordering
is the natural-number ordering. -/
def Date.period (d : Date) : ℕ := d.year * 12 + (d.month - 1)

/-- One row of the `transactions` table (columns
`Date, Amount, Category, Description`). -/
structure Txn where
  date : Date
  amount : ℚ
  category : String
  description : String
deriving DecidableEq, Repr

/-- Python `abs` on a signed decimal. -/
def pyAbs (a : ℚ) : ℚ := if a < 0 then -a else a

/-- The fixed category list `self.categories`. -/
def categories : List String :=
  ["Food", "Transportation", "Housing", "Entertainment",
   "Utilities", "Shopping", "Health", "Education", "Income", "Other"]

/-! ### TransactionStore: load, save, add (`load_data`, `save_data`, `add_transaction`) -/

/-- Sign normalization applied to one row by `load_data` (lines 41-47):
`Income` rows get `Amount.abs()`, every other row gets `-Amount.abs()`. -/
def normalizeTxn (t : Txn) : Txn :=
  if t.category = "Income" then { t with amount := pyAbs t.amount }
  else { t with amount := -(pyAbs t.amount) }

/-- The row-wise sign normalization `load_data` applies to the whole
loaded table. -/
def load_normalize (ts : List Txn) : List Txn := ts.map normalizeTxn

/-- `save_data`: writes the rows to `finance_data.csv` in order; the file
contents are the row list itself (columns round-trip exactly). -/
def save_data (ts : List Txn) : List Txn := ts

/-- `load_data` on an existing file: `pd.read_csv` yields the saved rows in
file order, then the sign normalization is applied to every row. -/
def load_data (file : List Txn) : List Txn := load_normalize file

/-- Persistence round trip: `save_data` then `load_data`. -/
def roundTrip (ts : List Txn) : List Txn := load_data (save_data ts)

/-- Sign invariant actually maintained by the store: `Income` rows are
non-negative, all other rows are non-positive. -/
def SignInvariant (ts : List Txn) : Prop :=
  ∀ t ∈ ts, (t.category = "Income" → 0 ≤ t.amount) ∧
    (t.category ≠ "Income" → t.amount ≤ 0)

/-- Amount rewrite done by `add_transaction` (lines 67-71): negate a
positive amount for a non-`Income` category, take the absolute value of a
negative amount for `Income`, otherwise keep the amount. -/
def addAmount (category : String) (amount : ℚ) : ℚ :=
  if category ≠ "Income" ∧ 0 < amount then -amount
  else if category = "Income" ∧ amount < 0 then pyAbs amount
  else amount

/-- Insertion step of the sort. -/
def insertBy {α : Type} (le : α → α → Bool) (x : α) : List α → List α
  | [] => [x]
  | y :: ys => if le x y then x :: y :: ys else y :: insertBy le x ys

/-- Comparison sort used to embed `DataFrame.sort_values` (only the
output ordering matters; `sort_values` makes no stability promise with
its default kind). -/
def sortBy {α : Type} (le : α → α → Bool) : List α → List α
  | [] => []
  | x :: xs => insertBy le x (sortBy le xs)

/-- `sort_values('Date', ascending=False)`: rows reordered so that
date ordinals are non-increasing. -/
def sortByDateDesc (ts : List Txn) : List Txn :=
  sortBy (fun a b => decide (b.date.ord ≤ a.date.ord)) ts

/-- `add_transaction(date, amount, category, description)` (lines 60-82):
rewrite the amount sign, append the new row, re-sort by date descending
(persistence via `save_data` writes exactly the resulting rows). -/
def add_transaction (ts : List Txn) (date : Date) (amount : ℚ)
    (category description : String) : List Txn :=
  sortByDateDesc (ts ++ [⟨date, addAmount category amount, category, description⟩])

/-! ### AggregationEngine: balance history (`get_balance_over_time_history`) -/

/-- Failure channel of the aggregation code.  `valueErrorNaT` embeds the
unhandled pandas `ValueError` raised on an empty table, where
`transactions['Date'].min()` is `NaT` and neither `NaT.date()` nor
`pd.date_range` accepts it.  `emptyDataset` is the defined error named by
the specification; it is listed here only so the two failures can be
compared — no code path produces it. -/
inductive AggError where
  | valueErrorNaT
  | emptyDataset
deriving DecidableEq, Repr

/-- Ordinal day numbers of the rows. -/
def ordsOf (ts : List Txn) : List ℕ := ts.map (fun t => t.date.ord)

/-- `transactions['Date'].min()` as an ordinal (0 only reachable on the
empty table, where the real code raises instead). -/
def minOrd : List Txn → ℕ
  | [] => 0
  | t :: rest => (ordsOf rest).foldl min t.date.ord

/-- `transactions['Date'].max()` as an ordinal. -/
def maxOrd : List Txn → ℕ
  | [] => 0
  | t :: rest => (ordsOf rest).foldl max t.date.ord

/-- `groupby(Date)['Amount'].sum()` evaluated at one day (after
`reindex(..., fill_value=0)` this is the value of every day in the
range, 0 when no row matches). -/
def dailySum (ts : List Txn) (d : ℕ) : ℚ :=
  ((ts.filter fun t => decide (t.date.ord = d)).map Txn.amount).sum

/-- `cumsum()` over the date-ordered day series. -/
def cumsum (acc : ℚ) : List (ℕ × ℚ) → List (ℕ × ℚ)
  | [] => []
  | (d, v) :: rest => (d, acc + v) :: cumsum (acc + v) rest

/-- `get_balance_over_time_history` (lines 87-106): daily sums, reindexed
over the inclusive `pd.date_range(min, max)` with missing days as 0, then
the cumulative sum.  On the empty table the pandas code raises (see
`AggError.valueErrorNaT`). -/
def get_balance_over_time_history (ts : List Txn) :
    Except AggError (List (ℕ × ℚ)) :=
  match ts with
  | [] => .error .valueErrorNaT
  | _ :: _ =>
    let lo := minOrd ts
    let hi := maxOrd ts
    let days := (List.range (hi + 1 - lo)).map (fun i => lo + i)
    .ok (cumsum 0 (days.map (fun d => (d, dailySum ts d))))

/-! ### AggregationEngine: monthly spending matrix (`get_monthly_spending_by_category`) -/

/-- `expenses = df[df['Amount'] < 0]` with `Amount` replaced by its
absolute value (lines 120-121). -/
def expenseRows (ts : List Txn) : List Txn :=
  (ts.filter fun t => decide (t.amount < 0)).map
    (fun t => { t with amount := pyAbs t.amount })

/-- Distinct months of the expense rows, ascending — the `pivot_table`
row index. -/
def observedMonths (ts : List Txn) : List ℕ :=
  sortBy (fun a b => decide (a ≤ b))
    (((expenseRows ts).map (fun t => t.date.period)).dedup)

/-- Distinct categories of the expense rows, ascending — the
`pivot_table` column index. -/
def observedCats (ts : List Txn) : List String :=
  sortBy (fun a b => decide (a ≤ b)) (((expenseRows ts).map Txn.category).dedup)

/-- One `pivot_table` cell: summed expense magnitude of a (month,
category) pair, `fill_value=0` when no row matches. -/
def matrixCell (ts : List Txn) (m : ℕ) (c : String) : ℚ :=
  (((expenseRows ts).filter fun t => decide (t.date.period = m ∧ t.category = c)).map
    Txn.amount).sum

/-- `get_monthly_spending_by_category` (lines 111-132): the dense matrix
over every observed month (rows, ascending) and every observed category
(columns), each cell summed with `fill_value=0`. -/
def get_monthly_spending_by_category (ts : List Txn) :
    List (ℕ × List (String × ℚ)) :=
  (observedMonths ts).map
    (fun m => (m, (observedCats ts).map (fun c => (c, matrixCell ts m c))))

/-! ### AggregationEngine: monthly summary (`get_income_vs_expenses_chart`) -/

/-- Pandas float value as far as the savings-rate arithmetic needs it: a
finite value, a signed infinity, or `NaN`. -/
inductive PFloat where
  | val (q : ℚ)
  | posInf
  | negInf
  | nan
deriving DecidableEq, Repr

/-- IEEE-754 division of two finite values as numpy performs it:
`x / 0` is `NaN` for `x = 0` and a signed infinity otherwise. -/
def floatDiv (a b : ℚ) : PFloat :=
  if b = 0 then (if a = 0 then .nan else if 0 < a then .posInf else .negInf)
  else .val (a / b)

/-- Multiplication by the positive literal `100` (infinities keep their
sign, `NaN` stays `NaN`). -/
def pmul100 : PFloat → PFloat
  | .val q => .val (q * 100)
  | .posInf => .posInf
  | .negInf => .negInf
  | .nan => .nan

/-- `Series.fillna(0)`: replaces `NaN` and nothing else — in particular
the infinities pass through. -/
def fillna0 : PFloat → PFloat
  | .nan => .val 0
  | x => x

/-- Month total of `df[df['Amount'] > 0]` (the `Income` column before
`fillna(0)`; 0 exactly when the month has no positive row). -/
def incomeOf (ts : List Txn) (m : ℕ) : ℚ :=
  ((ts.filter fun t => decide (t.date.period = m ∧ 0 < t.amount)).map Txn.amount).sum

/-- Month total of `abs` over `df[df['Amount'] < 0]` (the `Expenses`
column before `fillna(0)`). -/
def expensesOf (ts : List Txn) (m : ℕ) : ℚ :=
  ((ts.filter fun t => decide (t.date.period = m ∧ t.amount < 0)).map
    (fun t => pyAbs t.amount)).sum

/-- Index of the combined `monthly_summary` frame: the union of the
income months and the expense months, ascending. -/
def summaryMonths (ts : List Txn) : List ℕ :=
  sortBy (fun a b => decide (a ≤ b))
    (((ts.filter fun t => decide (0 < t.amount)).map (fun t => t.date.period) ++
      (ts.filter fun t => decide (t.amount < 0)).map (fun t => t.date.period)).dedup)

/-- One row of the `monthly_summary` frame. -/
structure SummaryRow where
  month : ℕ
  income : ℚ
  expenses : ℚ
  savings : ℚ
  savingsRate : PFloat
deriving DecidableEq, Repr

/-- `get_income_vs_expenses_chart` (lines 136-163): per month, income and
expense totals (absent side filled with 0 by the outer join plus
`fillna(0)`), `Savings = Income - Expenses`, and
`Savings_Rate = (Savings / Income * 100).fillna(0)` with pandas float
division. -/
def get_income_vs_expenses_chart (ts : List Txn) : List SummaryRow :=
  (summaryMonths ts).map (fun m =>
    { month := m
      income := incomeOf ts m
      expenses := expensesOf ts m
      savings := incomeOf ts m - expensesOf ts m
      savingsRate :=
        fillna0 (pmul100 (floatDiv (incomeOf ts m - expensesOf ts m) (incomeOf ts m))) })

/-! ### Concrete stores used by the scenario checks -/

/-- Scenario A store: (2024-01-01, -50, Food), (2024-01-02, +1000, Income). -/
def scenarioA : List Txn :=
  [⟨⟨2024, 1, 1⟩, -50, "Food", "grocery"⟩, ⟨⟨2024, 1, 2⟩, 1000, "Income", "salary"⟩]

/-- Scenario D store: one month with no income and a 300 expense. -/
def scenarioD : List Txn := [⟨⟨2024, 1, 15⟩, -300, "Food", "rent"⟩]

/-- Scenario E store: two same-month same-category expenses, -30 and -70. -/
def scenarioE : List Txn :=
  [⟨⟨2024, 3, 2⟩, -30, "Food", "lunch"⟩, ⟨⟨2024, 3, 9⟩, -70, "Food", "snacks"⟩]

/-- Row whose category is `Income` and whose amount is 0. -/
def zeroIncomeTxn : Txn := ⟨⟨2024, 1, 1⟩, 0, "Income", "zero"⟩

/-! ### Helper lemmas: `pyAbs` -/

theorem pyAbs_nonneg (a : ℚ) : 0 ≤ pyAbs a := by
  rw [pyAbs]; split <;> linarith

theorem pyAbs_of_nonneg {a : ℚ} (h : 0 ≤ a) : pyAbs a = a := by
  rw [pyAbs]; split <;> linarith

theorem pyAbs_of_nonpos {a : ℚ} (h : a ≤ 0) : pyAbs a = -a := by
  rw [pyAbs]; split
  · rfl
  · linarith

theorem normalizeTxn_category (t : Txn) : (normalizeTxn t).category = t.category := by
  rw [normalizeTxn]; split <;> rfl

/-! ### Helper lemmas: the comparison sort -/

theorem insertBy_perm {α : Type} (le : α → α → Bool) (x : α) :
    ∀ l : List α, (insertBy le x l).Perm (x :: l)
  | [] => List.Perm.refl _
  | y :: ys => by
    rw [insertBy]
    split
    · exact List.Perm.refl _
    · exact ((insertBy_perm le x ys).cons y).trans (List.Perm.swap x y ys)

theorem sortBy_perm {α : Type} (le : α → α → Bool) :
    ∀ l : List α, (sortBy le l).Perm l
  | [] => List.Perm.refl _
  | x :: xs => (insertBy_perm le x (sortBy le xs)).trans ((sortBy_perm le xs).cons x)

theorem mem_sortBy {α : Type} (le : α → α → Bool) (l : List α) (z : α) :
    z ∈ sortBy le l ↔ z ∈ l :=
  (sortBy_perm le l).mem_iff

theorem insertBy_pairwise {α : Type} (le : α → α → Bool)
    (htot : ∀ a b, le a b = true ∨ le b a = true)
    (htrans : ∀ a b c, le a b = true → le b c = true → le a c = true) (x : α) :
    ∀ l : List α, l.Pairwise (fun a b => le a b = true) →
      (insertBy le x l).Pairwise (fun a b => le a b = true) := by
  intro l
  induction l with
  | nil => intro _; simp [insertBy]
  | cons y ys ih =>
    intro h
    rcases List.pairwise_cons.mp h with ⟨hy, hys⟩
    rw [insertBy]
    split
    next hxy =>
      refine List.Pairwise.cons ?_ h
      intro z hz
      rcases List.mem_cons.mp hz with rfl | hz
      · exact hxy
      · exact htrans x y z hxy (hy z hz)
    next hxy =>
      refine List.Pairwise.cons ?_ (ih hys)
      intro z hz
      rcases List.mem_cons.mp ((insertBy_perm le x ys).mem_iff.mp hz) with rfl | hz
      · rcases htot z y with h1 | h1
        · exact absurd h1 hxy
        · exact h1
      · exact hy z hz

theorem sortBy_pairwise {α : Type} (le : α → α → Bool)
    (htot : ∀ a b, le a b = true ∨ le b a = true)
    (htrans : ∀ a b c, le a b = true → le b c = true → le a c = true) :
    ∀ l : List α, (sortBy le l).Pairwise (fun a b => le a b = true)
  | [] => List.Pairwise.nil
  | x :: xs =>
    insertBy_pairwise le htot htrans x (sortBy le xs)
      (sortBy_pairwise le htot htrans xs)

/-! ### Helper lemmas: fold min / fold max bounds -/

theorem foldl_min_le_init : ∀ (l : List ℕ) (a : ℕ), l.foldl min a ≤ a
  | [], _ => le_refl _
  | b :: l, a =>
    le_trans (foldl_min_le_init l (min a b)) (min_le_left a b)

theorem foldl_min_le_mem (l : List ℕ) :
    ∀ (a x : ℕ), x ∈ l → l.foldl min a ≤ x := by
  induction l with
  | nil => intro a x hx; cases hx
  | cons b l ih =>
    intro a x hx
    rcases List.mem_cons.mp hx with rfl | hx
    · exact le_trans (foldl_min_le_init l (min a x)) (min_le_right a x)
    · exact ih (min a b) x hx

theorem init_le_foldl_max : ∀ (l : List ℕ) (a : ℕ), a ≤ l.foldl max a
  | [], _ => le_refl _
  | b :: l, a =>
    le_trans (le_max_left a b) (init_le_foldl_max l (max a b))

theorem mem_le_foldl_max (l : List ℕ) :
    ∀ (a x : ℕ), x ∈ l → x ≤ l.foldl max a := by
  induction l with
  | nil => intro a x hx; cases hx
  | cons b l ih =>
    intro a x hx
    rcases List.mem_cons.mp hx with rfl | hx
    · exact le_trans (le_max_right a x) (init_le_foldl_max l (max a x))
    · exact ih (max a b) x hx

theorem minOrd_le_of_mem {ts : List Txn} {t : Txn} (h : t ∈ ts) :
    minOrd ts ≤ t.date.ord := by
  cases ts with
  | nil => cases h
  | cons u rest =>
    rcases List.mem_cons.mp h with rfl | h
    · exact foldl_min_le_init _ _
    · exact foldl_min_le_mem _ _ _ (List.mem_map.mpr ⟨t, h, rfl⟩)

theorem le_maxOrd_of_mem {ts : List Txn} {t : Txn} (h : t ∈ ts) :
    t.date.ord ≤ maxOrd ts := by
  cases ts with
  | nil => cases h
  | cons u rest =>
    rcases List.mem_cons.mp h with rfl | h
    · exact init_le_foldl_max _ _
    · exact mem_le_foldl_max _ _ _ (List.mem_map.mpr ⟨t, h, rfl⟩)

theorem minOrd_le_maxOrd {ts : List Txn} (h : ts ≠ []) :
    minOrd ts ≤ maxOrd ts := by
  cases ts with
  | nil => exact absurd rfl h
  | cons u rest =>
    exact le_trans (minOrd_le_of_mem (List.mem_cons_self u rest))
      (le_maxOrd_of_mem (List.mem_cons_self u rest))

/-! ### Helper lemmas: `cumsum` -/

theorem cumsum_length : ∀ (xs : List (ℕ × ℚ)) (acc : ℚ),
    (cumsum acc xs).length = xs.length := by
  intro xs
  induction xs with
  | nil => intro acc; rfl
  | cons p rest ih =>
    intro acc
    obtain ⟨d, v⟩ := p
    rw [cumsum]
    simp [ih]

theorem cumsum_map_fst : ∀ (xs : List (ℕ × ℚ)) (acc : ℚ),
    (cumsum acc xs).map Prod.fst = xs.map Prod.fst := by
  intro xs
  induction xs with
  | nil => intro acc; rfl
  | cons p rest ih =>
    intro acc
    obtain ⟨d, v⟩ := p
    rw [cumsum]
    simp [ih]

theorem getLast?_cons_of_ne {α : Type} (a : α) :
    ∀ (l : List α), l ≠ [] → (a :: l).getLast? = l.getLast?
  | [], h => absurd rfl h
  | _ :: _, _ => List.getLast?_cons_cons

theorem cumsum_ne_nil {xs : List (ℕ × ℚ)} {acc : ℚ} (h : xs ≠ []) :
    cumsum acc xs ≠ [] := by
  intro hc
  have hlen := cumsum_length xs acc
  rw [hc] at hlen
  exact h (List.length_eq_zero.mp hlen.symm)

theorem cumsum_snd_getLast : ∀ (xs : List (ℕ × ℚ)) (acc : ℚ), xs ≠ [] →
    ((cumsum acc xs).map Prod.snd).getLast? =
      some (acc + (xs.map Prod.snd).sum) := by
  intro xs
  induction xs with
  | nil => intro acc h; exact absurd rfl h
  | cons p rest ih =>
    intro acc _
    obtain ⟨d, v⟩ := p
    cases rest with
    | nil => simp [cumsum]
    | cons q rs =>
      have hne : (cumsum (acc + v) (q :: rs)).map Prod.snd ≠ [] := by
        intro hc
        exact cumsum_ne_nil (by simp) (List.map_eq_nil_iff.mp hc)
      rw [show cumsum acc ((d, v) :: q :: rs) =
            (d, acc + v) :: cumsum (acc + v) (q :: rs) from rfl,
        List.map_cons, getLast?_cons_of_ne _ _ hne, ih (acc + v) (by simp)]
      simp [add_assoc]

/-! ### Helper lemmas: partitioning a sum over the day range -/

theorem sum_map_filter_or {p q : Txn → Prop} [DecidablePred p] [DecidablePred q]
    (hdisj : ∀ t, p t → q t → False) :
    ∀ ts : List Txn,
      ((ts.filter fun t => decide (p t ∨ q t)).map Txn.amount).sum =
        ((ts.filter fun t => decide (p t)).map Txn.amount).sum +
          ((ts.filter fun t => decide (q t)).map Txn.amount).sum := by
  intro ts
  induction ts with
  | nil => simp
  | cons t ts ih =>
    by_cases hp : p t <;> by_cases hq : q t
    · exact (hdisj t hp hq).elim
    · rw [List.filter_cons, List.filter_cons, List.filter_cons,
        if_pos (decide_eq_true (Or.inl hp : p t ∨ q t)), if_pos (decide_eq_true hp),
        if_neg (by simp [hq]), List.map_cons, List.sum_cons, List.map_cons,
        List.sum_cons, ih]
      ring
    · rw [List.filter_cons, List.filter_cons, List.filter_cons,
        if_pos (decide_eq_true (Or.inr hq : p t ∨ q t)), if_neg (by simp [hp]),
        if_pos (decide_eq_true hq), List.map_cons, List.sum_cons, List.map_cons,
        List.sum_cons, ih]
      ring
    · rw [List.filter_cons, List.filter_cons, List.filter_cons,
        if_neg (by simp [hp, hq]), if_neg (by simp [hp]), if_neg (by simp [hq]), ih]

theorem sum_dailySum (ts : List Txn) :
    ∀ days : List ℕ, days.Nodup →
      (days.map (dailySum ts)).sum =
        ((ts.filter fun t => decide (t.date.ord ∈ days)).map Txn.amount).sum := by
  intro days
  induction days with
  | nil => intro _; simp
  | cons d ds ih =>
    intro hnd
    rcases List.nodup_cons.mp hnd with ⟨hd, hds⟩
    have hcongr : (ts.filter fun t => decide (t.date.ord ∈ d :: ds)) =
        ts.filter fun t => decide (t.date.ord = d ∨ t.date.ord ∈ ds) := by
      apply List.filter_congr
      intro t _
      simp [List.mem_cons]
    have hor := sum_map_filter_or (p := fun t => t.date.ord = d)
      (q := fun t => t.date.ord ∈ ds) (fun t hp hq => hd (hp ▸ hq)) ts
    rw [List.map_cons, List.sum_cons, ih hds, hcongr, hor, dailySum]

theorem filter_mem_days (ts : List Txn) (days : List ℕ)
    (h : ∀ t ∈ ts, t.date.ord ∈ days) :
    (ts.filter fun t => decide (t.date.ord ∈ days)) = ts :=
  List.filter_eq_self.mpr (fun t ht => decide_eq_true (h t ht))

/-! ### Helper lemmas: sign normalization and `add_transaction` -/

theorem normalizeTxn_invariant (t : Txn) :
    ((normalizeTxn t).category = "Income" → 0 ≤ (normalizeTxn t).amount) ∧
      ((normalizeTxn t).category ≠ "Income" → (normalizeTxn t).amount ≤ 0) := by
  rw [normalizeTxn]
  split
  next hc =>
    exact ⟨fun _ => pyAbs_nonneg t.amount, fun hne => absurd hc hne⟩
  next hc =>
    exact ⟨fun he => absurd he hc, fun _ => neg_nonpos.mpr (pyAbs_nonneg t.amount)⟩

theorem normalizeTxn_fixed {t : Txn} (h1 : t.category = "Income" → 0 ≤ t.amount)
    (h2 : t.category ≠ "Income" → t.amount ≤ 0) : normalizeTxn t = t := by
  rw [normalizeTxn]
  split
  next hc => rw [pyAbs_of_nonneg (h1 hc)]
  next hc => rw [pyAbs_of_nonpos (h2 hc), neg_neg]

theorem normalizeTxn_idem (t : Txn) :
    normalizeTxn (normalizeTxn t) = normalizeTxn t :=
  normalizeTxn_fixed (normalizeTxn_invariant t).1 (normalizeTxn_invariant t).2

theorem load_normalize_invariant (ts : List Txn) :
    SignInvariant (load_normalize ts) := by
  intro t ht
  rcases List.mem_map.mp ht with ⟨u, _, rfl⟩
  exact normalizeTxn_invariant u

theorem load_normalize_fixed : ∀ ts, SignInvariant ts → load_normalize ts = ts
  | [], _ => rfl
  | t :: ts, h => by
    rcases h t (List.mem_cons_self t ts) with ⟨h1, h2⟩
    have ih := load_normalize_fixed ts (fun u hu => h u (List.mem_cons_of_mem t hu))
    rw [load_normalize, List.map_cons, normalizeTxn_fixed h1 h2]
    rw [load_normalize] at ih
    rw [ih]

theorem load_normalize_idem (ts : List Txn) :
    load_normalize (load_normalize ts) = load_normalize ts :=
  load_normalize_fixed (load_normalize ts) (load_normalize_invariant ts)

theorem addAmount_invariant (c : String) (a : ℚ) :
    (c = "Income" → 0 ≤ addAmount c a) ∧ (c ≠ "Income" → addAmount c a ≤ 0) := by
  rw [addAmount]
  split
  next h1 =>
    exact ⟨fun hc => absurd hc h1.1, fun _ => by linarith [h1.2]⟩
  next h1 =>
    split
    next h2 => exact ⟨fun _ => pyAbs_nonneg a, fun hne => absurd h2.1 hne⟩
    next h2 =>
      push_neg at h1 h2
      constructor
      · intro hc
        by_contra hlt
        exact absurd (h2 hc) (by push_neg; linarith)
      · intro hne
        by_contra hlt
        exact absurd (h1 hne) (by push_neg; linarith)

theorem add_transaction_perm (ts : List Txn) (d : Date) (a : ℚ) (c s : String) :
    (add_transaction ts d a c s).Perm (⟨d, addAmount c a, c, s⟩ :: ts) := by
  refine (sortBy_perm _ _).trans ?_
  have h : (ts ++ [(⟨d, addAmount c a, c, s⟩ : Txn)]).Perm
      ((⟨d, addAmount c a, c, s⟩ : Txn) :: (ts ++ [])) := List.perm_middle
  simp only [List.append_nil] at h
  exact h

theorem sortByDateDesc_sorted (ts : List Txn) :
    (sortByDateDesc ts).Pairwise (fun a b => b.date.ord ≤ a.date.ord) := by
  have h := sortBy_pairwise (fun a b : Txn => decide (b.date.ord ≤ a.date.ord))
    (fun a b => by rcases le_total b.date.ord a.date.ord with h | h <;>
      simp [decide_eq_true_eq, h])
    (fun a b c hab hbc => decide_eq_true
      (le_trans (of_decide_eq_true hbc) (of_decide_eq_true hab))) ts
  exact h.imp (fun hab => of_decide_eq_true hab)

theorem add_transaction_invariant {ts : List Txn} (h : SignInvariant ts)
    (d : Date) (a : ℚ) (c s : String) :
    SignInvariant (add_transaction ts d a c s) := by
  intro t ht
  rcases List.mem_cons.mp ((add_transaction_perm ts d a c s).mem_iff.mp ht) with rfl | ht
  · exact addAmount_invariant c a
  · exact h t ht

/-! ### Claim C2 -/

/-- C2 counterexample: a stored `Income` row with amount 0 is untouched by
the load normalization, so after normalization its amount is not strictly
greater than 0 — the strict form of the invariant fails. -/
theorem income_zero_violates_strict_sign :
    load_normalize [zeroIncomeTxn] = [zeroIncomeTxn] ∧
      zeroIncomeTxn.category = "Income" ∧ ¬(0 < zeroIncomeTxn.amount) := by
  refine ⟨?_, rfl, by norm_num [zeroIncomeTxn]⟩
  norm_num +decide [load_normalize, normalizeTxn, zeroIncomeTxn, pyAbs]

/-- C2 (amended): after normalization — on every load, and on every add to
an already-normalized store — every stored `Income` transaction has amount
greater than or equal to 0 (not strictly greater), and every transaction
of any other category has amount less than or equal to 0. -/
theorem sign_invariant_after_normalization (ts : List Txn) (d : Date)
    (a : ℚ) (c s : String) (h : SignInvariant ts) :
    (∀ us : List Txn, SignInvariant (load_normalize us)) ∧
      SignInvariant (add_transaction ts d a c s) :=
  ⟨load_normalize_invariant, add_transaction_invariant h d a c s⟩

/-- C2 witness: the amended invariant instantiated on an add to the empty
store. -/
theorem sign_invariant_after_normalization_witness :
    SignInvariant (add_transaction [] ⟨2024, 1, 1⟩ 0 "Other" "w") :=
  (sign_invariant_after_normalization [] ⟨2024, 1, 1⟩ 0 "Other" "w"
    (by intro t ht; cases ht)).2

/-! ### Claim C4 -/

/-- C4 counterexample: on the empty store the balance-history code does
not fail with the defined `EmptyDataset` error — no code path produces
that error; what happens is an unhandled pandas `ValueError` on the `NaT`
min/max date. -/
theorem balance_history_empty_not_emptyDataset :
    get_balance_over_time_history [] ≠ Except.error AggError.emptyDataset := by
  intro h
  exact absurd (Except.error.inj h) (by decide)

/-- C4 (amended): on the empty store `get_balance_over_time_history`
fails — it raises the unhandled pandas `ValueError` coming from the `NaT`
min/max date — rather than returning an empty or garbage result; but the
failure is not a defined `EmptyDataset` error, which the code never
defines. -/
theorem balance_history_empty_fails :
    get_balance_over_time_history [] = Except.error AggError.valueErrorNaT := rfl

/-! ### Claim C5 -/

/-- C5 counterexample: `add_transaction` called with a category outside
the fixed ten-label set does not fail and stores the record (with the
usual sign rewrite applied). -/
theorem add_stores_invalid_category :
    "Swords" ∉ categories ∧
      add_transaction [] ⟨2024, 1, 1⟩ 5 "Swords" "toy" =
        [⟨⟨2024, 1, 1⟩, -5, "Swords", "toy"⟩] := by
  refine ⟨by decide, ?_⟩
  norm_num +decide [add_transaction, addAmount, sortByDateDesc, sortBy, insertBy]

/-- C5 (amended): `add_transaction` performs no category validation at
all: for every category string, in the fixed set or not, the call
succeeds and appends exactly the one new record (the fixed category list
is only offered as a prompt suggestion by the CLI, outside the core). -/
theorem add_no_category_validation (ts : List Txn) (d : Date) (a : ℚ)
    (c s : String) :
    (add_transaction ts d a c s).Perm (⟨d, addAmount c a, c, s⟩ :: ts) :=
  add_transaction_perm ts d a c s

/-! ### Claim C6 -/

/-- C6: `add_transaction` stores the amount negated when the category is
not `Income` and the amount is positive, the absolute value when the
category is `Income` and the amount is negative, and the amount unchanged
otherwise; the collection after the call is the old collection plus
exactly the one new record, sorted by date descending; concretely,
`add("2024-02-01", 200, "Food", "dinner")` stores amount -200. -/
theorem add_transaction_spec (ts : List Txn) (d : Date) (a : ℚ) (c s : String) :
    (c ≠ "Income" → 0 < a → addAmount c a = -a) ∧
      (c = "Income" → a < 0 → addAmount c a = pyAbs a) ∧
      (¬(c ≠ "Income" ∧ 0 < a) → ¬(c = "Income" ∧ a < 0) → addAmount c a = a) ∧
      (add_transaction ts d a c s).Perm (⟨d, addAmount c a, c, s⟩ :: ts) ∧
      (add_transaction ts d a c s).Pairwise (fun u v => v.date.ord ≤ u.date.ord) ∧
      add_transaction [] ⟨2024, 2, 1⟩ 200 "Food" "dinner" =
        [⟨⟨2024, 2, 1⟩, -200, "Food", "dinner"⟩] := by
  refine ⟨?_, ?_, ?_, add_transaction_perm ts d a c s, sortByDateDesc_sorted _, ?_⟩
  · intro h1 h2
    rw [addAmount, if_pos ⟨h1, h2⟩]
  · intro h1 h2
    rw [addAmount, if_neg (by simp [h1]), if_pos ⟨h1, h2⟩]
  · intro h1 h2
    rw [addAmount, if_neg h1, if_neg h2]
  · norm_num +decide [add_transaction, addAmount, sortByDateDesc, sortBy, insertBy]

/-- C6 witness: the amount-rewrite cases of the add specification,
discharged at concrete inputs. -/
theorem add_transaction_spec_witness :
    addAmount "Food" 200 = -200 ∧ addAmount "Income" (-7) = pyAbs (-7) ∧
      addAmount "Income" 4 = 4 := by
  refine ⟨?_, ?_, ?_⟩
  · have h := (add_transaction_spec [] ⟨2024, 2, 1⟩ 200 "Food" "dinner").1
      (by decide) (by norm_num)
    rw [h]
  · exact (add_transaction_spec [] ⟨2024, 2, 1⟩ (-7) "Income" "pay").2.1
      rfl (by norm_num)
  · exact (add_transaction_spec [] ⟨2024, 2, 1⟩ 4 "Income" "pay").2.2.1
      (by norm_num +decide) (by norm_num +decide)

/-! ### Claim C9 -/

/-- C9: for every store satisfying the store's sign invariant (every
reachable store does), `save_data` followed by `load_data` reproduces the
very same row list — in particular an equivalent multiset — and the sign
normalization applied on load is idempotent on every collection. -/
theorem save_load_round_trip (ts : List Txn) (h : SignInvariant ts) :
    roundTrip ts = ts ∧
      ∀ us : List Txn, load_normalize (load_normalize us) = load_normalize us := by
  constructor
  · rw [roundTrip, load_data, save_data]
    exact load_normalize_fixed ts h
  · exact load_normalize_idem

/-- C9 witness: the round trip on the Scenario A store, which satisfies
the sign invariant. -/
theorem save_load_round_trip_witness : roundTrip scenarioA = scenarioA :=
  (save_load_round_trip scenarioA
    (by intro t ht
        simp only [scenarioA, List.mem_cons, List.mem_singleton] at ht
        rcases ht with rfl | rfl | h
        · norm_num +decide
        · norm_num +decide
        · cases h)).1

/-! ### Claim C10 -/

/-- C10: for every category, `Income` included, adding a transaction with
amount exactly 0 leaves the amount 0 (neither sign branch fires), the load
normalization also maps a 0 amount to 0, and hence a stored `Income`
transaction can have amount 0. -/
theorem zero_amount_spec (c s : String) (d : Date) (ts : List Txn) :
    addAmount c 0 = 0 ∧
      (normalizeTxn ⟨d, 0, c, s⟩).amount = 0 ∧
      (add_transaction ts d 0 c s).Perm (⟨d, 0, c, s⟩ :: ts) ∧
      add_transaction [] ⟨2024, 1, 5⟩ 0 "Income" "zero" =
        [⟨⟨2024, 1, 5⟩, 0, "Income", "zero"⟩] := by
  have hz : addAmount c 0 = 0 := by
    rw [addAmount, if_neg (by push_neg; intro _; norm_num),
      if_neg (by push_neg; intro _; norm_num)]
  refine ⟨hz, ?_, ?_, ?_⟩
  · rw [normalizeTxn]
    split <;> norm_num [pyAbs]
  · have h := add_transaction_perm ts d 0 c s
    rw [hz] at h
    exact h
  · norm_num +decide [add_transaction, addAmount, sortByDateDesc, sortBy, insertBy]

/-! ### Helper lemmas: sorted month lists -/

theorem sortBy_nat_sorted (l : List ℕ) :
    (sortBy (fun a b => decide (a ≤ b)) l).Pairwise (· ≤ ·) := by
  have h := sortBy_pairwise (fun a b : ℕ => decide (a ≤ b))
    (fun a b => by
      rcases Nat.le_total a b with h | h
      · exact Or.inl (decide_eq_true h)
      · exact Or.inr (decide_eq_true h))
    (fun a b c hab hbc => decide_eq_true
      (le_trans (of_decide_eq_true hab) (of_decide_eq_true hbc))) l
  exact h.imp (fun hab => of_decide_eq_true hab)

/-! ### Claim C1 -/

/-- C1: the failing input evaluated through the code.  For the month with
income 0 and expenses 300 the summary row does report savings -300, but
its savings rate is the pandas float `-inf` (the division `-300.0 / 0.0`
yields `-inf`, and `.fillna(0)` replaces only `NaN`), not the 0 the
specification promises for a zero-income month. -/
theorem savings_rate_negInf_on_zero_income :
    get_income_vs_expenses_chart scenarioD =
      [{ month := 24288, income := 0, expenses := 300, savings := -300,
         savingsRate := PFloat.negInf }] := by
  norm_num +decide [get_income_vs_expenses_chart, summaryMonths, incomeOf,
    expensesOf, scenarioD, Date.period, floatDiv, pmul100, fillna0, pyAbs,
    sortBy, insertBy]

/-! ### Claim C8 -/

/-- C8: in the monthly summary, every month holding a positive-amount or a
negative-amount transaction appears as a row whose income and expenses are
the month's totals — a month with only one of the two sides still appears,
with the missing side equal to 0 — and every row satisfies
savings = income - expenses. -/
theorem monthly_summary_spec (ts : List Txn) (m : ℕ)
    (hm : (∃ t ∈ ts, t.date.period = m ∧ 0 < t.amount) ∨
      (∃ t ∈ ts, t.date.period = m ∧ t.amount < 0)) :
    (∀ row ∈ get_income_vs_expenses_chart ts,
        row.savings = row.income - row.expenses) ∧
      (∃ row ∈ get_income_vs_expenses_chart ts,
        row.month = m ∧ row.income = incomeOf ts m ∧ row.expenses = expensesOf ts m) ∧
      ((∀ t ∈ ts, t.date.period = m → ¬(t.amount < 0)) → expensesOf ts m = 0) ∧
      ((∀ t ∈ ts, t.date.period = m → ¬(0 < t.amount)) → incomeOf ts m = 0) := by
  refine ⟨?_, ?_, ?_, ?_⟩
  · intro row hrow
    rcases List.mem_map.mp hrow with ⟨m2, _, rfl⟩
    rfl
  · have hmem : m ∈ summaryMonths ts := by
      apply (mem_sortBy _ _ _).mpr
      apply List.mem_dedup.mpr
      apply List.mem_append.mpr
      rcases hm with ⟨t, ht, hp, ha⟩ | ⟨t, ht, hp, ha⟩
      · exact Or.inl (List.mem_map.mpr
          ⟨t, List.mem_filter.mpr ⟨ht, decide_eq_true ha⟩, hp⟩)
      · exact Or.inr (List.mem_map.mpr
          ⟨t, List.mem_filter.mpr ⟨ht, decide_eq_true ha⟩, hp⟩)
    exact ⟨_, List.mem_map.mpr ⟨m, hmem, rfl⟩, rfl, rfl, rfl⟩
  · intro hno
    rw [expensesOf, List.filter_eq_nil_iff.mpr ?_]
    · rfl
    · intro t ht
      simp only [decide_eq_true_eq, not_and]
      exact fun hp => hno t ht hp
  · intro hno
    rw [incomeOf, List.filter_eq_nil_iff.mpr ?_]
    · rfl
    · intro t ht
      simp only [decide_eq_true_eq, not_and]
      exact fun hp => hno t ht hp

/-- C8 witness: the Scenario D month has only expenses; the income side of
its row is 0. -/
theorem monthly_summary_spec_witness : incomeOf scenarioD 24288 = 0 :=
  (monthly_summary_spec scenarioD 24288
      (Or.inr ⟨⟨⟨2024, 1, 15⟩, -300, "Food", "rent"⟩,
        by norm_num +decide [scenarioD, Date.period]⟩)).2.2.2
    (by
      intro t ht _
      rw [List.mem_singleton.mp ht]
      norm_num)

/-! ### Claim C7 -/

/-- C7: the monthly spending matrix is built from the expense rows only
(negative amounts, in absolute value): its rows are the observed months in
ascending order; every observed month carries a dense row with one cell
per observed category (so a month lacking a category still gets a cell,
which sums to 0); and the Scenario E store (expenses -30 and -70, same
month, same category) yields the single cell 100. -/
theorem monthly_matrix_spec (ts : List Txn) (m : ℕ) (c : String)
    (hm : m ∈ (expenseRows ts).map (fun t => t.date.period))
    (hc : c ∈ (expenseRows ts).map Txn.category) :
    ((get_monthly_spending_by_category ts).map Prod.fst).Pairwise (· ≤ ·) ∧
      (m, (observedCats ts).map (fun c2 => (c2, matrixCell ts m c2))) ∈
        get_monthly_spending_by_category ts ∧
      (c, matrixCell ts m c) ∈
        (observedCats ts).map (fun c2 => (c2, matrixCell ts m c2)) ∧
      ((∀ t ∈ expenseRows ts, ¬(t.date.period = m ∧ t.category = c)) →
        matrixCell ts m c = 0) ∧
      get_monthly_spending_by_category scenarioE = [(24290, [("Food", 100)])] := by
  refine ⟨?_, ?_, ?_, ?_, ?_⟩
  · have heq : (get_monthly_spending_by_category ts).map Prod.fst =
        observedMonths ts := by
      rw [get_monthly_spending_by_category, List.map_map]
      exact List.map_id _
    rw [heq, observedMonths]
    exact sortBy_nat_sorted _
  · exact List.mem_map.mpr
      ⟨m, (mem_sortBy _ _ _).mpr (List.mem_dedup.mpr hm), rfl⟩
  · exact List.mem_map.mpr
      ⟨c, (mem_sortBy _ _ _).mpr (List.mem_dedup.mpr hc), rfl⟩
  · intro hno
    rw [matrixCell, List.filter_eq_nil_iff.mpr ?_]
    · rfl
    · intro t ht
      simp only [decide_eq_true_eq]
      exact hno t ht
  · norm_num +decide [get_monthly_spending_by_category, observedMonths,
      observedCats, matrixCell, expenseRows, scenarioE, Date.period, pyAbs,
      sortBy, insertBy]

/-- C7 witness: the Scenario E month appears as a dense row of the
matrix. -/
theorem monthly_matrix_spec_witness :
    (24290, (observedCats scenarioE).map
        (fun c2 => (c2, matrixCell scenarioE 24290 c2))) ∈
      get_monthly_spending_by_category scenarioE :=
  (monthly_matrix_spec scenarioE 24290 "Food"
      (by norm_num +decide [expenseRows, scenarioE, Date.period, pyAbs])
      (by norm_num +decide [expenseRows, scenarioE, pyAbs])).2.1

/-! ### Claim C3 -/

/-- C3: on every non-empty store the balance history succeeds with exactly
one entry per calendar day from the minimum to the maximum transaction
date inclusive — its dates are that day range and its length the inclusive
day count — and its last value is the sum of all transaction amounts; on
the Scenario A store the history is
[(2024-01-01, -50), (2024-01-02, 950)] (dates as day ordinals). -/
theorem balance_history_spec (ts : List Txn) (h : ts ≠ []) :
    (∃ out, get_balance_over_time_history ts = Except.ok out ∧
      out.length = maxOrd ts - minOrd ts + 1 ∧
      out.map Prod.fst =
        (List.range (maxOrd ts + 1 - minOrd ts)).map (fun i => minOrd ts + i) ∧
      (out.map Prod.snd).getLast? = some ((ts.map Txn.amount).sum)) ∧
    get_balance_over_time_history scenarioA =
      Except.ok [(738886, -50), (738887, 950)] := by
  constructor
  · cases ts with
    | nil => exact absurd rfl h
    | cons u rest =>
      have hle : minOrd (u :: rest) ≤ maxOrd (u :: rest) :=
        minOrd_le_maxOrd (by simp)
      have hnodup : (((List.range (maxOrd (u :: rest) + 1 - minOrd (u :: rest))).map
          (fun i => minOrd (u :: rest) + i))).Nodup :=
        (List.nodup_range _).map (fun i j hij => by omega)
      have hcover : ∀ t ∈ u :: rest, t.date.ord ∈
          (List.range (maxOrd (u :: rest) + 1 - minOrd (u :: rest))).map
            (fun i => minOrd (u :: rest) + i) := by
        intro t ht
        have h1 := minOrd_le_of_mem ht
        have h2 := le_maxOrd_of_mem ht
        exact List.mem_map.mpr ⟨t.date.ord - minOrd (u :: rest),
          List.mem_range.mpr (by omega), by omega⟩
      refine ⟨cumsum 0 (((List.range (maxOrd (u :: rest) + 1 - minOrd (u :: rest))).map
          (fun i => minOrd (u :: rest) + i)).map
            (fun d => (d, dailySum (u :: rest) d))),
        rfl, ?_, ?_, ?_⟩
      · rw [cumsum_length, List.length_map, List.length_map, List.length_range]
        omega
      · rw [cumsum_map_fst, List.map_map]
        simp
      · have hne2 : ((List.range (maxOrd (u :: rest) + 1 - minOrd (u :: rest))).map
            (fun i => minOrd (u :: rest) + i)).map
              (fun d => (d, dailySum (u :: rest) d)) ≠ [] := by
          simp only [ne_eq, List.map_eq_nil_iff, List.range_eq_nil]
          omega
        rw [cumsum_snd_getLast _ 0 hne2, zero_add, List.map_map]
        have hcomp : (Prod.snd ∘ fun d => (d, dailySum (u :: rest) d)) =
            dailySum (u :: rest) := rfl
        rw [hcomp, sum_dailySum (u :: rest) _ hnodup,
          filter_mem_days (u :: rest) _ hcover]
  · have hmin : minOrd scenarioA = 738886 := by decide
    have hmax : maxOrd scenarioA = 738887 := by decide
    have h0 : get_balance_over_time_history scenarioA =
        Except.ok (cumsum 0 (((List.range (maxOrd scenarioA + 1 - minOrd scenarioA)).map
          (fun i => minOrd scenarioA + i)).map
            (fun d => (d, dailySum scenarioA d)))) := rfl
    rw [h0, hmin, hmax, show List.range (738887 + 1 - 738886) = [0, 1] by decide]
    norm_num +decide [cumsum, dailySum, scenarioA, Date.ord, daysBeforeMonth, isLeap]

/-- C3 witness: the balance-history specification applied to the
Scenario A store. -/
theorem balance_history_spec_witness :
    get_balance_over_time_history scenarioA =
      Except.ok [(738886, -50), (738887, 950)] :=
  (balance_history_spec scenarioA (by simp [scenarioA])).2

end FinanceTracker
